import Mathlib

/-!
Formal model of the PyAsyncLogger repository.

Shallow embedding of `src/pyasynclogger/async_logging.py`,
`src/pyasynclogger/async_handlers.py` and `src/pyasynclogger/json_tools.py`:
Python dictionaries become insertion-ordered association lists, Python
exceptions become `Except`, and the mutation of the caller-supplied `extra`
mapping performed by `AsyncLogger.makeRecord` is made explicit by returning
the final state of that mapping.
-/

namespace PyAsyncLogger

/-- Keys of a (nested) Python dictionary as seen by `json.dumps`: string keys
serialize directly; `kother` stands for keys of any other non-primitive kind,
on which `json.dumps` raises `TypeError`. -/
inductive PyKey where
  | kstr (s : String)
  | kother (tag : String)
deriving DecidableEq, Repr

/-- Date part of the Python `datetime` model: `datetime.date`. -/
structure PyDate where
  year : Nat
  month : Nat
  day : Nat
deriving DecidableEq, Repr

/-- Clock part of the Python `datetime` model: `datetime.time` (naive). -/
structure PyTime where
  hour : Nat
  minute : Nat
  second : Nat
  microsecond : Nat
deriving DecidableEq, Repr

/-- A naive `datetime.datetime` value (no time zone, as in the tests). -/
structure PyDateTime where
  year : Nat
  month : Nat
  day : Nat
  hour : Nat
  minute : Nat
  second : Nat
  microsecond : Nat
deriving DecidableEq, Repr

/-- Python runtime values that can appear in a `context` / `extra` payload.
Python floats are carried as rationals: the logging pipeline only moves them
around, it performs no floating-point arithmetic.  `pyobj` stands for a value
of a kind `CustomJSONEncoder.default` does not recognize.  Bytes are modelled
as naturals below 256. -/
inductive PyVal where
  | pystr (s : String)
  | pyint (n : Int)
  | pyfloat (q : ℚ)
  | pybool (b : Bool)
  | pynone
  | pydatetime (d : PyDateTime)
  | pydate (d : PyDate)
  | pytime (t : PyTime)
  | pydecimal (q : ℚ)
  | pyuuid (n : Nat)
  | pyset (xs : List PyVal)
  | pycomplex (re im : ℚ)
  | pybytes (bs : List Nat)
  | pyndarray (xs : List PyVal)
  | pylist (xs : List PyVal)
  | pydict (entries : List (PyKey × PyVal))
  | pyobj (tag : String)
deriving Repr

/-- A string-keyed Python dictionary (`Mapping[str, object]`), kept in
insertion order like a CPython dict. -/
abbrev PyDict := List (String × PyVal)

/-- Lookup in an insertion-ordered dictionary (first match). -/
def dictGet (d : PyDict) (k : String) : Option PyVal :=
  match d with
  | [] => none
  | (k', v) :: rest => if k' = k then some v else dictGet rest k

/-- `d[k] = v` on a Python dict: replace in place if the key exists
(preserving its position), otherwise append at the end. -/
def dictSet (d : PyDict) (k : String) (v : PyVal) : PyDict :=
  match d with
  | [] => [(k, v)]
  | (k', v') :: rest => if k' = k then (k', v) :: rest else (k', v') :: dictSet rest k v

/-- `d.update(other)` on Python dicts: set every entry of `other`, in order. -/
def dictUpdate (d other : PyDict) : PyDict :=
  other.foldl (fun acc kv => dictSet acc kv.1 kv.2) d

/-- The keys of a dictionary, in order. -/
def dictKeys (d : PyDict) : List String := d.map Prod.fst

theorem dictGet_dictSet_self (d : PyDict) (k : String) (v : PyVal) :
    dictGet (dictSet d k v) k = some v := by
  induction d with
  | nil => simp [dictSet, dictGet]
  | cons hd tl ih =>
      obtain ⟨k', v'⟩ := hd
      by_cases h : k' = k
      · simp [dictSet, dictGet, h]
      · simp [dictSet, dictGet, h, ih]

theorem dictGet_dictSet_ne (d : PyDict) {k k' : String} (v : PyVal) (h : k' ≠ k) :
    dictGet (dictSet d k' v) k = dictGet d k := by
  induction d with
  | nil => simp [dictSet, dictGet, h]
  | cons hd tl ih =>
      obtain ⟨k0, v0⟩ := hd
      by_cases h0 : k0 = k'
      · have hk : ¬ k0 = k := by rw [h0]; exact h
        simp [dictSet, dictGet, h0, hk, h]
      · by_cases h1 : k0 = k
        · have hk2 : ¬ k = k' := fun hh => h hh.symm
          simp [dictSet, dictGet, h0, h1, hk2]
        · simp [dictSet, dictGet, h0, h1, ih]

theorem dictGet_dictUpdate_not_mem (d : PyDict) {other : PyDict} {k : String}
    (h : k ∉ dictKeys other) :
    dictGet (dictUpdate d other) k = dictGet d k := by
  induction other generalizing d with
  | nil => simp [dictUpdate]
  | cons hd tl ih =>
      obtain ⟨k0, v0⟩ := hd
      simp only [dictKeys, List.map_cons, List.mem_cons] at h
      push_neg at h
      have step : dictUpdate d ((k0, v0) :: tl) = dictUpdate (dictSet d k0 v0) tl := rfl
      rw [step, ih (dictSet d k0 v0) (by simpa [dictKeys] using h.2)]
      exact dictGet_dictSet_ne d v0 (fun hh => h.1 hh.symm)

/-- After `d.update(other)`, every key of `other` carries the value from
`other`, assuming the keys of `other` are distinct (as they are for every
Python dict). -/
theorem dictGet_dictUpdate_of_mem (d : PyDict) {other : PyDict} {k : String} {v : PyVal}
    (hnodup : (dictKeys other).Nodup) (hmem : dictGet other k = some v) :
    dictGet (dictUpdate d other) k = some v := by
  induction other generalizing d with
  | nil => simp [dictGet] at hmem
  | cons hd tl ih =>
      obtain ⟨k0, v0⟩ := hd
      simp only [dictKeys, List.map_cons, List.nodup_cons] at hnodup
      have step : dictUpdate d ((k0, v0) :: tl) = dictUpdate (dictSet d k0 v0) tl := rfl
      by_cases h0 : k0 = k
      · subst h0
        simp only [dictGet, if_pos rfl] at hmem
        rw [step, dictGet_dictUpdate_not_mem _ (by simpa [dictKeys] using hnodup.1),
          dictGet_dictSet_self]
        simpa using hmem
      · simp only [dictGet, if_neg h0] at hmem
        rw [step]
        exact ih (dictSet d k0 v0) hnodup.2 hmem

/-- Setting a fresh key appends the entry at the end of the dict. -/
theorem dictSet_append_of_not_mem {d : PyDict} {k : String} (v : PyVal)
    (h : k ∉ dictKeys d) : dictSet d k v = d ++ [(k, v)] := by
  induction d with
  | nil => simp [dictSet]
  | cons hd tl ih =>
      obtain ⟨k1, v1⟩ := hd
      simp only [dictKeys, List.map_cons, List.mem_cons] at h
      push_neg at h
      have hne : ¬ k1 = k := fun hh => h.1 hh.symm
      simp only [dictSet, if_neg hne, List.cons_append, List.cons.injEq, true_and]
      exact ih (by simpa [dictKeys] using h.2)

theorem dictUpdate_append_of_disjoint {ctx : PyDict} (hnodup : (dictKeys ctx).Nodup) :
    ∀ d : PyDict, (∀ k ∈ dictKeys d, k ∉ dictKeys ctx) → dictUpdate d ctx = d ++ ctx := by
  induction ctx with
  | nil => intro d _; simp [dictUpdate]
  | cons hd tl ih =>
      intro d hdisj
      obtain ⟨k0, v0⟩ := hd
      simp only [dictKeys, List.map_cons, List.nodup_cons] at hnodup
      have hk0d : k0 ∉ dictKeys d := fun hmem => hdisj k0 hmem (by simp [dictKeys])
      have step : dictUpdate d ((k0, v0) :: tl) = dictUpdate (dictSet d k0 v0) tl := rfl
      rw [step, dictSet_append_of_not_mem v0 hk0d, ih hnodup.2 _ ?_, List.append_assoc]
      · rfl
      · intro k hk
        simp only [dictKeys, List.map_append, List.mem_append, List.map_cons, List.map_nil,
          List.mem_cons, List.not_mem_nil, or_false] at hk
        rcases hk with hk | hk
        · exact fun hmem => hdisj k hk (List.mem_cons_of_mem _ hmem)
        · subst hk
          simpa [dictKeys] using hnodup.1

/-- Updating an empty dict with a key-distinct dict reproduces it. -/
theorem dictUpdate_nil_of_nodup {ctx : PyDict} (hnodup : (dictKeys ctx).Nodup) :
    dictUpdate [] ctx = ctx := by
  simpa using dictUpdate_append_of_disjoint hnodup [] (by simp [dictKeys])

/-! ### Decimal and hexadecimal digit printing, as used by C-style formatting -/

/-- A single decimal digit character, by code point (callers always pass a
digit below 10). -/
def decChar (d : Nat) : Char := Char.ofNat (48 + d)

/-- Numeric value of a decimal digit character. -/
def decVal (c : Char) : Option Nat :=
  if 48 ≤ c.toNat ∧ c.toNat ≤ 57 then some (c.toNat - 48) else none

theorem decVal_decChar {d : Nat} (h : d < 10) : decVal (decChar d) = some d := by
  interval_cases d <;> decide

/-- A single lowercase hexadecimal digit, by code point, as in
`uuid.UUID.__str__`. -/
def hexChar (d : Nat) : Char :=
  if d < 10 then Char.ofNat (48 + d) else Char.ofNat (87 + d)

/-- Numeric value of a lowercase hexadecimal digit character. -/
def hexVal (c : Char) : Option Nat :=
  if 48 ≤ c.toNat ∧ c.toNat ≤ 57 then some (c.toNat - 48)
  else if 97 ≤ c.toNat ∧ c.toNat ≤ 102 then some (c.toNat - 87)
  else none

theorem hexVal_hexChar {d : Nat} (h : d < 16) : hexVal (hexChar d) = some d := by
  interval_cases d <;> decide

theorem hexChar_ne_dash {d : Nat} (h : d < 16) : hexChar d ≠ '-' := by
  interval_cases d <;> decide

/-! ### ISO-8601 formatting of dates and times

Model of CPython's `datetime.isoformat` for naive values: zero-padded fixed
width fields, microseconds printed as six digits only when nonzero. -/

/-- Two-digit zero-padded decimal rendering of a value below 100 (the leading
modulus is a no-op for in-range values). -/
def pad2 (n : Nat) : List Char := [decChar (n / 10 % 10), decChar (n % 10)]

/-- Four-digit zero-padded decimal rendering of a value below 10000. -/
def pad4 (n : Nat) : List Char :=
  [decChar (n / 1000 % 10), decChar (n / 100 % 10), decChar (n / 10 % 10), decChar (n % 10)]

/-- Six-digit zero-padded decimal rendering of a value below 1000000. -/
def pad6 (n : Nat) : List Char :=
  [decChar (n / 100000 % 10), decChar (n / 10000 % 10), decChar (n / 1000 % 10),
    decChar (n / 100 % 10), decChar (n / 10 % 10), decChar (n % 10)]

theorem decVal_decChar_mod (n : Nat) : decVal (decChar (n % 10)) = some (n % 10) :=
  decVal_decChar (Nat.mod_lt _ (by omega))

/-- `datetime.datetime.isoformat()` on a naive value. -/
def PyDateTime.isoformat (d : PyDateTime) : String :=
  String.mk (pad4 d.year ++ '-' :: (pad2 d.month ++ '-' :: (pad2 d.day ++ 'T' ::
    (pad2 d.hour ++ ':' :: (pad2 d.minute ++ ':' :: (pad2 d.second ++
      (if d.microsecond = 0 then [] else '.' :: pad6 d.microsecond)))))))

/-- `datetime.date.isoformat()`. -/
def PyDate.isoformat (d : PyDate) : String :=
  String.mk (pad4 d.year ++ '-' :: (pad2 d.month ++ '-' :: pad2 d.day))

/-- `datetime.time.isoformat()` on a naive value. -/
def PyTime.isoformat (t : PyTime) : String :=
  String.mk (pad2 t.hour ++ ':' :: (pad2 t.minute ++ ':' :: (pad2 t.second ++
    (if t.microsecond = 0 then [] else '.' :: pad6 t.microsecond))))

/-- The field invariants CPython enforces on every constructed
`datetime.datetime` value. -/
def PyDateTime.isValid (d : PyDateTime) : Bool :=
  1 ≤ d.year && d.year ≤ 9999 && 1 ≤ d.month && d.month ≤ 12 && 1 ≤ d.day && d.day ≤ 31 &&
    d.hour ≤ 23 && d.minute ≤ 59 && d.second ≤ 59 && d.microsecond ≤ 999999

/-- Parse two decimal digit characters. -/
def parse2 (c1 c2 : Char) : Option Nat :=
  match decVal c1, decVal c2 with
  | some a, some b => some (a * 10 + b)
  | _, _ => none

/-- Parse four decimal digit characters. -/
def parse4 (c1 c2 c3 c4 : Char) : Option Nat :=
  match decVal c1, decVal c2, decVal c3, decVal c4 with
  | some a, some b, some c, some d => some (((a * 10 + b) * 10 + c) * 10 + d)
  | _, _, _, _ => none

/-- Parse six decimal digit characters. -/
def parse6 (c1 c2 c3 c4 c5 c6 : Char) : Option Nat :=
  match decVal c1, decVal c2, decVal c3, decVal c4, decVal c5, decVal c6 with
  | some a, some b, some c, some d, some e, some f =>
      some (((((a * 10 + b) * 10 + c) * 10 + d) * 10 + e) * 10 + f)
  | _, _, _, _, _, _ => none

/-- The optional fractional-seconds suffix of an ISO timestamp. -/
def parseFrac : List Char → Option Nat
  | [] => some 0
  | '.' :: u1 :: u2 :: u3 :: u4 :: u5 :: [u6] => parse6 u1 u2 u3 u4 u5 u6
  | _ => none

/-- Character-level worker for `PyDateTime.fromIso`. -/
def fromIsoChars : List Char → Option PyDateTime
  | y1 :: y2 :: y3 :: y4 :: '-' :: m1 :: m2 :: '-' :: dd1 :: dd2 :: 'T' ::
      h1 :: h2 :: ':' :: mi1 :: mi2 :: ':' :: s1 :: s2 :: rest =>
    match parse4 y1 y2 y3 y4, parse2 m1 m2, parse2 dd1 dd2, parse2 h1 h2,
        parse2 mi1 mi2, parse2 s1 s2, parseFrac rest with
    | some y, some mo, some da, some h, some mi, some se, some u =>
        if (⟨y, mo, da, h, mi, se, u⟩ : PyDateTime).isValid
          then some (⟨y, mo, da, h, mi, se, u⟩ : PyDateTime) else none
    | _, _, _, _, _, _, _ => none
  | _ => none

/-- Model of `datetime.datetime.fromisoformat`, restricted to the canonical
strings `isoformat` produces, as the round-trip test in
`tests/test_json_tools.py` uses it. -/
def PyDateTime.fromIso (s : String) : Option PyDateTime :=
  fromIsoChars s.toList

/-- Printing a valid naive datetime with `isoformat` and parsing it back with
`fromisoformat` reproduces the value. -/
theorem PyDateTime.fromIso_isoformat {d : PyDateTime} (h : d.isValid = true) :
    PyDateTime.fromIso d.isoformat = some d := by
  obtain ⟨y, mo, da, hh, mi, se, u⟩ := d
  simp only [PyDateTime.isValid, Bool.and_eq_true, decide_eq_true_eq] at h
  have hgen : ∀ Y Mo Da H Mi Se U : Nat, Y = y → Mo = mo → Da = da → H = hh → Mi = mi →
      Se = se → U = u →
      (if (⟨Y, Mo, Da, H, Mi, Se, U⟩ : PyDateTime).isValid
        then some (⟨Y, Mo, Da, H, Mi, Se, U⟩ : PyDateTime) else none) =
        some (⟨y, mo, da, hh, mi, se, u⟩ : PyDateTime) := by
    intro Y Mo Da H Mi Se U e1 e2 e3 e4 e5 e6 e7
    subst e1; subst e2; subst e3; subst e4; subst e5; subst e6; subst e7
    rw [if_pos]
    simp only [PyDateTime.isValid, Bool.and_eq_true, decide_eq_true_eq]
    omega
  by_cases hu : u = 0
  · subst hu
    simp only [PyDateTime.fromIso, PyDateTime.isoformat, String.toList, pad4, pad2,
      if_pos rfl, List.append_nil, List.cons_append, List.nil_append, fromIsoChars,
      parse4, parse2, parseFrac, decVal_decChar_mod]
    exact hgen _ _ _ _ _ _ _ (by omega) (by omega) (by omega) (by omega) (by omega)
      (by omega) rfl
  · simp only [PyDateTime.fromIso, PyDateTime.isoformat, String.toList, pad4, pad2, pad6,
      if_neg hu, List.append_nil, List.cons_append, List.nil_append, fromIsoChars,
      parse4, parse2, parse6, parseFrac, decVal_decChar_mod]
    exact hgen _ _ _ _ _ _ _ (by omega) (by omega) (by omega) (by omega) (by omega)
      (by omega) (by omega)

/-! ### UUID canonical string form, `str(uuid.UUID)` and `uuid.UUID(s)` -/

/-- The `k` base-16 digits of `n`, least significant first. -/
def hexDigitsRev : Nat → Nat → List Nat
  | 0, _ => []
  | k + 1, n => n % 16 :: hexDigitsRev k (n / 16)

/-- The 32 hex digit characters of a 128-bit UUID integer, most significant
first, lowercase as CPython prints them. -/
def uuidHexChars (n : Nat) : List Char := ((hexDigitsRev 32 n).reverse).map hexChar

/-- `str(uuid.UUID(int=n))`: 32 lowercase hex digits in 8-4-4-4-12 groups. -/
def uuidStr (n : Nat) : String :=
  String.mk ((uuidHexChars n).take 8 ++ '-' :: ((uuidHexChars n).drop 8).take 4 ++ '-' ::
    ((uuidHexChars n).drop 12).take 4 ++ '-' :: ((uuidHexChars n).drop 16).take 4 ++ '-' ::
    (uuidHexChars n).drop 20)

/-- Hex-digit values of a character list, failing on any non-hex character. -/
def hexValList : List Char → Option (List Nat)
  | [] => some []
  | c :: cs =>
      match hexVal c, hexValList cs with
      | some d, some ds => some (d :: ds)
      | _, _ => none

/-- Model of `uuid.UUID(s)`, restricted to the canonical dashed-hex strings
`uuidStr` produces, as the round-trip test uses it. -/
def uuidParse (s : String) : Option Nat :=
  match hexValList (s.toList.filter (fun c => c != '-')) with
  | some ds => if ds.length = 32 then some (ds.foldl (fun a d => a * 16 + d) 0) else none
  | none => none

theorem length_hexDigitsRev (k n : Nat) : (hexDigitsRev k n).length = k := by
  induction k generalizing n with
  | zero => rfl
  | succ k ih => simp [hexDigitsRev, ih]

theorem mem_hexDigitsRev {k n d : Nat} (h : d ∈ hexDigitsRev k n) : d < 16 := by
  induction k generalizing n with
  | zero => simp [hexDigitsRev] at h
  | succ k ih =>
      simp only [hexDigitsRev, List.mem_cons] at h
      rcases h with h | h
      · subst h
        exact Nat.mod_lt _ (by omega)
      · exact ih h

theorem foldr_hexDigitsRev (k n : Nat) :
    List.foldr (fun x y => y * 16 + x) 0 (hexDigitsRev k n) = n % 16 ^ k := by
  induction k generalizing n with
  | zero => simp [hexDigitsRev, Nat.mod_one]
  | succ k ih =>
      simp only [hexDigitsRev, List.foldr_cons, ih]
      rw [pow_succ, show (16 : Nat) ^ k * 16 = 16 * 16 ^ k from Nat.mul_comm _ _,
        Nat.mod_mul]
      ring

theorem hexValList_map_hexChar {ds : List Nat} (h : ∀ d ∈ ds, d < 16) :
    hexValList (ds.map hexChar) = some ds := by
  induction ds with
  | nil => rfl
  | cons a l ih =>
      simp [hexValList, hexVal_hexChar (h a (by simp)),
        ih (fun d hd => h d (by simp [hd]))]

theorem filter_uuidStr (n : Nat) :
    List.filter (fun c => c != '-') ((uuidStr n).data) = uuidHexChars n := by
  have hel : ∀ c ∈ uuidHexChars n, (c != '-') = true := by
    intro c hc
    simp only [uuidHexChars, List.mem_map] at hc
    obtain ⟨d, hd, rfl⟩ := hc
    rw [List.mem_reverse] at hd
    simpa [bne_iff_ne] using hexChar_ne_dash (mem_hexDigitsRev hd)
  have hpiece : ∀ l : List Char, l ⊆ uuidHexChars n →
      l.filter (fun c => c != '-') = l := by
    intro l hl
    exact List.filter_eq_self.mpr fun a ha => hel a (hl ha)
  have hsub : ∀ m : Nat, (uuidHexChars n).drop m ⊆ uuidHexChars n := fun m =>
    List.drop_subset m _
  simp only [uuidStr, String.toList, List.filter_append, List.filter_cons]
  norm_num
  rw [hpiece _ (List.take_subset 8 _), hpiece _ (fun a ha => hsub 8 (List.take_subset 4 _ ha)),
    hpiece _ (fun a ha => hsub 12 (List.take_subset 4 _ ha)),
    hpiece _ (fun a ha => hsub 16 (List.take_subset 4 _ ha)), hpiece _ (hsub 20)]
  have h20 : ((uuidHexChars n).drop 16).take 4 ++ (uuidHexChars n).drop 20 =
      (uuidHexChars n).drop 16 := by
    rw [show (20 : Nat) = 16 + 4 from rfl, ← List.drop_drop, List.take_append_drop]
  have h16 : ((uuidHexChars n).drop 12).take 4 ++ (uuidHexChars n).drop 16 =
      (uuidHexChars n).drop 12 := by
    rw [show (16 : Nat) = 12 + 4 from rfl, ← List.drop_drop, List.take_append_drop]
  have h12 : ((uuidHexChars n).drop 8).take 4 ++ (uuidHexChars n).drop 12 =
      (uuidHexChars n).drop 8 := by
    rw [show (12 : Nat) = 8 + 4 from rfl, ← List.drop_drop, List.take_append_drop]
  rw [h20, h16, h12, List.take_append_drop]

/-- Printing a 128-bit integer as a canonical UUID string and parsing it back
reproduces the integer. -/
theorem uuidParse_uuidStr {n : Nat} (h : n < 2 ^ 128) : uuidParse (uuidStr n) = some n := by
  have hds : ∀ d ∈ (hexDigitsRev 32 n).reverse, d < 16 := by
    intro d hd
    rw [List.mem_reverse] at hd
    exact mem_hexDigitsRev hd
  have hlen : ((hexDigitsRev 32 n).reverse).length = 32 := by
    rw [List.length_reverse, length_hexDigitsRev]
  have h32 : n % 16 ^ 32 = n := by
    apply Nat.mod_eq_of_lt
    calc n < 2 ^ 128 := h
      _ = 16 ^ 32 := by norm_num
  have hvl := hexValList_map_hexChar hds
  rw [List.map_reverse] at hvl
  simp [uuidParse, filter_uuidStr, uuidHexChars, hvl, hlen, foldr_hexDigitsRev, h32]
  omega

/-! ### Base64, `base64.b64encode` / `base64.b64decode` -/

/-- The standard base64 alphabet character at a sextet value, by code point:
uppercase letters, lowercase letters, digits, then `+` and `/`. -/
def b64Char (d : Nat) : Char :=
  if d < 26 then Char.ofNat (65 + d)
  else if d < 52 then Char.ofNat (71 + d)
  else if d < 62 then Char.ofNat (d - 4)
  else if d = 62 then '+'
  else '/'

/-- Sextet value of a base64 alphabet character. -/
def b64Val (c : Char) : Option Nat :=
  if 65 ≤ c.toNat ∧ c.toNat ≤ 90 then some (c.toNat - 65)
  else if 97 ≤ c.toNat ∧ c.toNat ≤ 122 then some (c.toNat - 71)
  else if 48 ≤ c.toNat ∧ c.toNat ≤ 57 then some (c.toNat + 4)
  else if c = '+' then some 62
  else if c = '/' then some 63
  else none

theorem b64Val_b64Char {s : Nat} (h : s < 64) : b64Val (b64Char s) = some s := by
  interval_cases s <;> rfl

theorem b64Char_ne_pad {s : Nat} (h : s < 64) : b64Char s ≠ '=' := by
  interval_cases s <;> decide

/-- `base64.b64encode` on a list of byte values, producing the padded
character stream. -/
def b64EncodeBytes : List Nat → List Char
  | [] => []
  | [a] => [b64Char (a / 4), b64Char (a % 4 * 16), '=', '=']
  | [a, b] => [b64Char (a / 4), b64Char (a % 4 * 16 + b / 16), b64Char (b % 16 * 4), '=']
  | a :: b :: c :: rest =>
      b64Char (a / 4) :: b64Char (a % 4 * 16 + b / 16) :: b64Char (b % 16 * 4 + c / 64) ::
        b64Char (c % 64) :: b64EncodeBytes rest

/-- Model of `base64.b64decode`, restricted to the canonical padded streams
`b64encode` produces, as the round-trip test uses it. -/
def b64DecodeChars : List Char → Option (List Nat)
  | [] => some []
  | c1 :: c2 :: c3 :: c4 :: rest =>
      match b64Val c1, b64Val c2 with
      | some s1, some s2 =>
          if c3 = '=' then
            if c4 = '=' ∧ rest = [] then some [s1 * 4 + s2 / 16] else none
          else
            match b64Val c3 with
            | some s3 =>
                if c4 = '=' then
                  if rest = [] then some [s1 * 4 + s2 / 16, s2 % 16 * 16 + s3 / 4] else none
                else
                  match b64Val c4, b64DecodeChars rest with
                  | some s4, some tail =>
                      some ((s1 * 4 + s2 / 16) :: (s2 % 16 * 16 + s3 / 4) ::
                        (s3 % 4 * 64 + s4) :: tail)
                  | _, _ => none
            | none => none
      | _, _ => none
  | _ => none

/-- Base64-encoding a byte list and decoding it back reproduces the bytes. -/
theorem b64DecodeChars_b64EncodeBytes {bs : List Nat} (h : ∀ b ∈ bs, b < 256) :
    b64DecodeChars (b64EncodeBytes bs) = some bs := by
  induction bs using b64EncodeBytes.induct with
  | case1 => rfl
  | case2 a =>
      have ha : a < 256 := h a (by simp)
      simp [b64EncodeBytes, b64DecodeChars, b64Val_b64Char (show a / 4 < 64 by omega),
        b64Val_b64Char (show a % 4 * 16 < 64 by omega)]
      omega
  | case3 a b =>
      have ha : a < 256 := h a (by simp)
      have hb : b < 256 := h b (by simp)
      simp [b64EncodeBytes, b64DecodeChars, b64Val_b64Char (show a / 4 < 64 by omega),
        b64Val_b64Char (show a % 4 * 16 + b / 16 < 64 by omega),
        b64Val_b64Char (show b % 16 * 4 < 64 by omega),
        b64Char_ne_pad (show b % 16 * 4 < 64 by omega)]
      omega
  | case4 a b c rest ih =>
      have ha : a < 256 := h a (by simp)
      have hb : b < 256 := h b (by simp)
      have hc : c < 256 := h c (by simp)
      have hrest : ∀ x ∈ rest, x < 256 := fun x hx => h x (by simp [hx])
      simp [b64EncodeBytes, b64DecodeChars, b64Val_b64Char (show a / 4 < 64 by omega),
        b64Val_b64Char (show a % 4 * 16 + b / 16 < 64 by omega),
        b64Val_b64Char (show b % 16 * 4 + c / 64 < 64 by omega),
        b64Val_b64Char (show c % 64 < 64 by omega),
        b64Char_ne_pad (show b % 16 * 4 + c / 64 < 64 by omega),
        b64Char_ne_pad (show c % 64 < 64 by omega), ih hrest]
      omega

/-! ### `json.dumps(-, cls=CustomJSONEncoder)` -/

/-- Python exceptions the embedded paths can raise. -/
inductive PyErr where
  | valueError (msg : String)
  | keyError (msg : String)
  | typeError (msg : String)
deriving DecidableEq, Repr

/-- JSON values, as `json.loads(json.dumps(...))` observes them. -/
inductive Jv where
  | jnull
  | jbool (b : Bool)
  | jint (n : Int)
  | jnum (q : ℚ)
  | jstr (s : String)
  | jarr (xs : List Jv)
  | jobj (entries : List (String × Jv))
deriving Repr

mutual

/-- `json.dumps(-, cls=CustomJSONEncoder)` on one Python value.  Native JSON
kinds serialize directly; the remaining kinds go through
`CustomJSONEncoder.default` in `json_tools.py`, whose result is serialized
recursively.  `default` has no branch for an unrecognized kind, so it falls
off the end, returns `None`, and the value serializes as `null`.
(`pandas.DataFrame` payloads are outside this value universe.) -/
def encodeVal : PyVal → Except PyErr Jv
  | .pystr s => .ok (.jstr s)
  | .pyint n => .ok (.jint n)
  | .pyfloat q => .ok (.jnum q)
  | .pybool b => .ok (.jbool b)
  | .pynone => .ok .jnull
  | .pydatetime d => .ok (.jstr d.isoformat)
  | .pydate d => .ok (.jstr d.isoformat)
  | .pytime t => .ok (.jstr t.isoformat)
  | .pydecimal q => .ok (.jnum q)
  | .pyuuid n => .ok (.jstr (uuidStr n))
  | .pyset xs => do return .jarr (← encodeList xs)
  | .pycomplex re im => .ok (.jobj [("real", .jnum re), ("imag", .jnum im)])
  | .pybytes bs => .ok (.jstr (String.mk (b64EncodeBytes bs)))
  | .pyndarray xs => do return .jarr (← encodeList xs)
  | .pylist xs => do return .jarr (← encodeList xs)
  | .pydict es => do return .jobj (← encodeKEntries es)
  | .pyobj _ => .ok .jnull

/-- Encode the elements of a Python list. -/
def encodeList : List PyVal → Except PyErr (List Jv)
  | [] => .ok []
  | v :: vs => do return (← encodeVal v) :: (← encodeList vs)

/-- Encode the entries of a nested dict: `json.dumps` raises `TypeError`
on any key that is not a JSON primitive. -/
def encodeKEntries : List (PyKey × PyVal) → Except PyErr (List (String × Jv))
  | [] => .ok []
  | (.kstr s, v) :: rest => do return (s, ← encodeVal v) :: (← encodeKEntries rest)
  | (.kother _, _) :: _ =>
      .error (.typeError "keys must be str, int, float, bool or None, not a tuple")

end

/-- `json.dumps(extra, cls=CustomJSONEncoder)` over a `Mapping[str, object]`;
`makeRecord` only observes whether this succeeds. -/
def encodeSEntries : List (String × PyVal) → Except PyErr (List (String × Jv))
  | [] => .ok []
  | (k, v) :: rest => do return (k, ← encodeVal v) :: (← encodeSEntries rest)

/-! ### The decoding side of the round-trip tests in `tests/test_json_tools.py` -/

/-- `datetime.datetime.fromisoformat(json.loads(s))` applied to the decoded
JSON value. -/
def decodeDatetime : Jv → Option PyVal
  | .jstr s => (PyDateTime.fromIso s).map PyVal.pydatetime
  | _ => none

/-- `uuid.UUID(json.loads(s))` applied to the decoded JSON value. -/
def decodeUuid : Jv → Option PyVal
  | .jstr s => (uuidParse s).map PyVal.pyuuid
  | _ => none

/-- `base64.b64decode(json.loads(s))` applied to the decoded JSON value. -/
def decodeBytes : Jv → Option PyVal
  | .jstr s => (b64DecodeChars s.data).map PyVal.pybytes
  | _ => none

/-- A JSON primitive read back as the Python value it came from. -/
def decodePrim : Jv → Option PyVal
  | .jint n => some (.pyint n)
  | .jstr s => some (.pystr s)
  | .jnum q => some (.pyfloat q)
  | .jbool b => some (.pybool b)
  | .jnull => some .pynone
  | _ => none

/-- Read back a JSON array of primitives. -/
def primList : List Jv → Option (List PyVal)
  | [] => some []
  | x :: xs =>
      match decodePrim x, primList xs with
      | some v, some vs => some (v :: vs)
      | _, _ => none

/-- `set(json.loads(s))` applied to the decoded JSON value: the elements in
their serialized iteration order. -/
def decodeSet : Jv → Option PyVal
  | .jarr xs =>
      match primList xs with
      | some vs => some (.pyset vs)
      | none => none
  | _ => none

/-- `complex(d["real"], d["imag"])` applied to the decoded JSON object. -/
def decodeComplex : Jv → Option PyVal
  | .jobj entries =>
      match entries.lookup "real", entries.lookup "imag" with
      | some (.jnum re), some (.jnum im) => some (.pycomplex re im)
      | _, _ => none
  | _ => none

/-- Python values that are JSON primitives (serialize natively and read back
unchanged). -/
def isPrim : PyVal → Bool
  | .pyint _ => true
  | .pystr _ => true
  | .pyfloat _ => true
  | .pybool _ => true
  | .pynone => true
  | _ => false

/-- Value `v` encodes successfully and `decode` reads the encoding back as
exactly `v`. -/
def RoundTrips (decode : Jv → Option PyVal) (v : PyVal) : Prop :=
  ∃ j, encodeVal v = .ok j ∧ decode j = some v

theorem decodePrim_encodeVal {v : PyVal} (h : isPrim v = true) :
    ∃ j, encodeVal v = .ok j ∧ decodePrim j = some v := by
  cases v <;> simp_all [isPrim, encodeVal, decodePrim]

theorem primList_encodeList {xs : List PyVal} (h : ∀ x ∈ xs, isPrim x = true) :
    ∃ js, encodeList xs = .ok js ∧ primList js = some xs := by
  induction xs with
  | nil => exact ⟨[], rfl, rfl⟩
  | cons v vs ih =>
      obtain ⟨j, hj, hjd⟩ := decodePrim_encodeVal (h v (by simp))
      obtain ⟨js, hjs, hjsd⟩ := ih (fun x hx => h x (by simp [hx]))
      refine ⟨j :: js, ?_, ?_⟩
      · simp only [encodeList, hj, hjs]
        rfl
      · simp [primList, hjd, hjsd]

/-! ### `AsyncLogger` (`async_logging.py`) -/

/-- The mutable state of one `AsyncLogger` instance: its name, configured
level and bound context dict. -/
structure AsyncLogger where
  name : String
  level : Nat
  context : PyDict
deriving Repr

/-- `AsyncLogger.__init__`: `self.context = context or {}` replaces a missing
or empty (falsy) context argument with a fresh empty dict. -/
def AsyncLogger.init (name : String) (level : Nat) (context : Option PyDict) : AsyncLogger :=
  ⟨name, level,
    match context with
    | none => []
    | some d => if d.isEmpty then [] else d⟩

/-- `AsyncLogger.bind(**new_context)`: `self.context.update(new_context)`. -/
def AsyncLogger.bind (lg : AsyncLogger) (newContext : PyDict) : AsyncLogger :=
  { lg with context := dictUpdate lg.context newContext }

/-- A `logging.LogRecord` as the stdlib factory builds it, with the per-key
copy of the merged `extra` mapping into the record's attribute dict. -/
structure LogRecord where
  name : String
  levelno : Nat
  pathname : String
  lineno : Option Nat
  msg : String
  args : List PyVal
  excInfo : Option String
  func : Option String
  sinfo : Option String
  extras : PyDict
deriving Repr

/-- The attribute names every fresh `LogRecord` already carries, plus the two
names stdlib `Logger.makeRecord` always refuses: a colliding `extra` key
raises `KeyError`. -/
def reservedAttrs : List String :=
  ["message", "asctime", "name", "msg", "args", "levelname", "levelno", "pathname",
    "filename", "module", "exc_info", "exc_text", "stack_info", "lineno", "funcName",
    "created", "msecs", "relativeCreated", "thread", "threadName", "processName",
    "process", "taskName"]

/-- The per-key copy loop of stdlib `Logger.makeRecord`: each entry of the
merged mapping is copied into the record's attribute dict unless its key is
reserved or was already copied, in which case `KeyError` is raised. -/
def copyExtras (seen : List String) : PyDict → Except PyErr PyDict
  | [] => .ok []
  | (k, v) :: rest =>
      if reservedAttrs.contains k || seen.contains k then .error (.keyError k)
      else do
        return (k, v) :: (← copyExtras (k :: seen) rest)

/-- stdlib `logging.Logger.makeRecord`: build the record, then copy the
(already merged) `extra` entries into its attribute dict. -/
def baseMakeRecord (name : String) (level : Nat) (fn : String) (lno : Option Nat)
    (msg : String) (args : List PyVal) (excInfo : Option String) (func : Option String)
    (extra : PyDict) (sinfo : Option String) : Except PyErr LogRecord := do
  return ⟨name, level, fn, lno, msg, args, excInfo, func, sinfo, ← copyExtras [] extra⟩

/-- `AsyncLogger.makeRecord` (`async_logging.py`): when the caller passes
`extra`, it is tested with `json.dumps(extra, cls=CustomJSONEncoder)` and a
`TypeError`/`ValueError` from that test is re-raised as
`ValueError("Non-serializable data provided in extra")`; when the caller
passes `None`, a fresh empty dict is used and nothing is tested.  Then
`extra.update(self.context)` merges the bound context into the caller dict in
place, and the stdlib factory copies the merged entries.  The second result
component is the caller's `extra` object after the call (`none` when the
caller passed `None`: the method then worked on its private dict). -/
def AsyncLogger.makeRecord (lg : AsyncLogger) (name : String) (level : Nat) (fn : String)
    (lno : Option Nat) (msg : String) (args : List PyVal) (excInfo : Option String)
    (func : Option String) (extra : Option PyDict) (sinfo : Option String) :
    Except PyErr (LogRecord × Option PyDict) :=
  match extra with
  | none => do
      let r ← baseMakeRecord name level fn lno msg args excInfo func
        (dictUpdate [] lg.context) sinfo
      return (r, none)
  | some d =>
      match encodeSEntries d with
      | .error _ => .error (.valueError "Non-serializable data provided in extra")
      | .ok _ => do
          let r ← baseMakeRecord name level fn lno msg args excInfo func
            (dictUpdate d lg.context) sinfo
          return (r, some (dictUpdate d lg.context))

/-- `Logger.getEffectiveLevel`: the stdlib walks the parent chain and returns
the first nonzero level, or NOTSET (0) when the chain runs out.  The loggers
this code constructs (directly or through `AsyncLogger.get_logger`) are
parentless, so the walk inspects only this logger: it returns `lg.level`
whether or not that is NOTSET.  A NOTSET logger is therefore enabled for
every level. -/
def AsyncLogger.getEffectiveLevel (lg : AsyncLogger) : Nat :=
  lg.level

/-- `Logger.isEnabledFor` (`self.disabled` and `manager.disable` are at their
defaults, false and 0, for these loggers). -/
def AsyncLogger.isEnabledFor (lg : AsyncLogger) (level : Nat) : Bool :=
  lg.getEffectiveLevel ≤ level

/-- `AsyncLogger._log_async`: level check first; only then is a record built
(with the kwargs defaults of the source: `fn=""`, `lno=None`, no exception
info, no stack info) and handed to `handle`, which awaits
`handler.handle(record)` for every attached handler in order.  Handlers are
identified by index; the result pairs the constructed record (with the
caller-visible final `extra`) with the list of handler calls made.
Record-construction errors propagate to the caller of this method. -/
def AsyncLogger.logAsync (lg : AsyncLogger) (numHandlers : Nat) (level : Nat) (msg : String)
    (args : List PyVal) (extra : Option PyDict) :
    Except PyErr (Option (LogRecord × Option PyDict) × List (Nat × LogRecord)) :=
  if lg.isEnabledFor level then do
    let re ← lg.makeRecord lg.name level "" none msg args none none extra none
    return (some re, (List.range numHandlers).map (fun i => (i, re.1)))
  else
    return (none, [])

/-- What the caller of a per-level method observes: the dispatched record (if
any), the handler calls, and the stderr diagnostics; never an exception. -/
structure LevelCallResult where
  record : Option LogRecord
  handlerCalls : List (Nat × LogRecord)
  stderrLines : List String
deriving Repr

/-- The level-name strings used in the stderr diagnostics of the per-level
methods. -/
def levelName : Nat → String
  | 10 => "DEBUG" | 20 => "INFO" | 30 => "WARNING" | 40 => "ERROR" | 50 => "CRITICAL"
  | _ => "NOTSET"

/-- The shared body of `debug`/`info`/`warning`/`error`/`critical`: call
`_log_async` at the method's level inside `try`, and catch every exception,
printing two diagnostic lines to stderr instead of re-raising. -/
def AsyncLogger.levelCall (lg : AsyncLogger) (numHandlers : Nat) (level : Nat)
    (msg : String) (args : List PyVal) (extra : Option PyDict) : LevelCallResult :=
  match lg.logAsync numHandlers level msg args extra with
  | .ok (ro, calls) => ⟨ro.map Prod.fst, calls, []⟩
  | .error _ =>
      ⟨none, [], [levelName level ++ ": An error occurred while logging",
        levelName level ++ ": Message that failed to log: " ++ msg]⟩

/-- `AsyncLogger.debug`. -/
def AsyncLogger.debug (lg : AsyncLogger) (numHandlers : Nat) (msg : String)
    (args : List PyVal) (extra : Option PyDict) : LevelCallResult :=
  lg.levelCall numHandlers 10 msg args extra

/-- `AsyncLogger.info`. -/
def AsyncLogger.info (lg : AsyncLogger) (numHandlers : Nat) (msg : String)
    (args : List PyVal) (extra : Option PyDict) : LevelCallResult :=
  lg.levelCall numHandlers 20 msg args extra

/-- `AsyncLogger.warning`. -/
def AsyncLogger.warning (lg : AsyncLogger) (numHandlers : Nat) (msg : String)
    (args : List PyVal) (extra : Option PyDict) : LevelCallResult :=
  lg.levelCall numHandlers 30 msg args extra

/-- `AsyncLogger.error`. -/
def AsyncLogger.error (lg : AsyncLogger) (numHandlers : Nat) (msg : String)
    (args : List PyVal) (extra : Option PyDict) : LevelCallResult :=
  lg.levelCall numHandlers 40 msg args extra

/-- `AsyncLogger.critical`. -/
def AsyncLogger.critical (lg : AsyncLogger) (numHandlers : Nat) (msg : String)
    (args : List PyVal) (extra : Option PyDict) : LevelCallResult :=
  lg.levelCall numHandlers 50 msg args extra

/-- One call-site operation against a logger. -/
inductive LoggerOp where
  | bindOp (kvs : PyDict)
  | logOp (level : Nat) (msg : String) (extra : Option PyDict)

/-- Run a sequence of `bind` and per-level log calls against one logger,
collecting every dispatched record in order. -/
def runOps (lg : AsyncLogger) (numHandlers : Nat) : List LoggerOp → AsyncLogger × List LogRecord
  | [] => (lg, [])
  | .bindOp kvs :: rest => runOps (lg.bind kvs) numHandlers rest
  | .logOp level msg extra :: rest =>
      let res := lg.levelCall numHandlers level msg [] extra
      let tail := runOps lg numHandlers rest
      (tail.1, res.record.toList ++ tail.2)

/-- The process-wide `AsyncLogger._loggers` cache. -/
structure LoggerRegistry where
  loggers : List (String × AsyncLogger)
deriving Repr

/-- `AsyncLogger.get_logger`: return the cached instance for `name`, creating
it from `level` and `context` only when `name` is absent from the cache. -/
def AsyncLogger.get_logger (reg : LoggerRegistry) (name : String) (level : Nat)
    (context : Option PyDict) : AsyncLogger × LoggerRegistry :=
  match reg.loggers.lookup name with
  | some lg => (lg, reg)
  | none => (AsyncLogger.init name level context,
      ⟨reg.loggers ++ [(name, AsyncLogger.init name level context)]⟩)

/-! ### `AsyncCloudWatchLoggingHandler` (`async_handlers.py`) -/

/-- Mutable state of an `AsyncCloudWatchLoggingHandler`. -/
structure AsyncCloudWatchLoggingHandler where
  logGroupName : String
  streamName : String
  sequenceToken : Option String
deriving Repr, DecidableEq

/-- `AsyncCloudWatchLoggingHandler.__init__`: the sequence token starts unset. -/
def AsyncCloudWatchLoggingHandler.init (g s : String) : AsyncCloudWatchLoggingHandler :=
  ⟨g, s, none⟩

/-- One `client.put_log_events(...)` invocation as `async_emit` issues it.
The `sequenceToken` keyword is syntactically present in every call the code
makes (`tokenPassed` records whether the keyword appears in the call at all);
its value is `self.sequence_token if self.sequence_token else None`. -/
structure PutLogEventsCall where
  logGroupName : String
  logStreamName : String
  logEvents : List (Int × String)
  tokenPassed : Bool
  sequenceToken : Option String
deriving Repr, DecidableEq

/-- `x if x else None` on an optional string: Python truthiness, under which
an empty string is falsy. -/
def tokenIfTruthy : Option String → Option String
  | some t => if t = "" then none else some t
  | none => none

/-- `AsyncCloudWatchLoggingHandler.async_emit`: format the record, build one
log event from its timestamp and message, call `put_log_events` with the
current token, then store the backend's `nextSequenceToken`
(`response.get(...)`, hence optional).  The backend response is an input of
the model; the blocking call itself is opaque. -/
def AsyncCloudWatchLoggingHandler.async_emit (h : AsyncCloudWatchLoggingHandler)
    (formatted : String) (createdMs : Int) (nextSequenceToken : Option String) :
    PutLogEventsCall × AsyncCloudWatchLoggingHandler :=
  (⟨h.logGroupName, h.streamName, [(createdMs, formatted)], true,
      tokenIfTruthy h.sequenceToken⟩,
    { h with sequenceToken := nextSequenceToken })

/-! ### Support lemmas about record construction and the registry -/

theorem copyExtras_eq_ok_aux {d : PyDict} (seen : List String)
    (hres : ∀ k ∈ dictKeys d, k ∉ reservedAttrs)
    (hseen : ∀ k ∈ dictKeys d, k ∉ seen)
    (hnodup : (dictKeys d).Nodup) : copyExtras seen d = .ok d := by
  induction d generalizing seen with
  | nil => rfl
  | cons hd tl ih =>
      obtain ⟨k, v⟩ := hd
      simp only [dictKeys, List.map_cons, List.nodup_cons] at hnodup
      have hk1 : reservedAttrs.contains k = false := by
        simpa [List.contains, List.elem_eq_mem] using hres k (by simp [dictKeys])
      have hk2 : seen.contains k = false := by
        simpa [List.contains, List.elem_eq_mem] using hseen k (by simp [dictKeys])
      have htl : copyExtras (k :: seen) tl = .ok tl := by
        refine ih (k :: seen) (fun k' hk' => hres k' (by simp [dictKeys] at hk' ⊢; exact .inr hk'))
          (fun k' hk' => ?_) hnodup.2
        simp only [dictKeys] at hk'
        simp only [List.mem_cons, not_or]
        refine ⟨fun he => ?_, hseen k' (by simp [dictKeys, hk'])⟩
        subst he
        exact hnodup.1 hk'
      simp only [copyExtras, hk1, hk2, Bool.or_self, Bool.false_eq_true, if_false, htl]
      rfl

/-- The stdlib copy loop succeeds, and copies the mapping verbatim, when the
keys are distinct and none is reserved. -/
theorem copyExtras_eq_ok {d : PyDict} (hres : ∀ k ∈ dictKeys d, k ∉ reservedAttrs)
    (hnodup : (dictKeys d).Nodup) : copyExtras [] d = .ok d :=
  copyExtras_eq_ok_aux [] hres (by simp) hnodup

theorem lookup_append_of_none {α β : Type} [BEq α] {l1 l2 : List (α × β)} {a : α}
    (h : l1.lookup a = none) : (l1 ++ l2).lookup a = l2.lookup a := by
  induction l1 with
  | nil => rfl
  | cons hd tl ih =>
      obtain ⟨k, v⟩ := hd
      simp only [List.lookup] at h ⊢
      cases hak : a == k with
      | true => simp [hak] at h
      | false =>
          simp only [hak] at h ⊢
          exact ih h

theorem lookup_mem {α β : Type} [BEq α] [LawfulBEq α] {l : List (α × β)} {a : α} {b : β}
    (h : l.lookup a = some b) : (a, b) ∈ l := by
  induction l with
  | nil => simp [List.lookup] at h
  | cons hd tl ih =>
      obtain ⟨k, v⟩ := hd
      simp only [List.lookup] at h
      cases hak : a == k with
      | true =>
          simp only [hak] at h
          obtain rfl : v = b := by simpa using h
          have : a = k := eq_of_beq hak
          subst this
          exact List.mem_cons_self _ _
      | false =>
          simp only [hak] at h
          exact List.mem_cons_of_mem _ (ih h)

/-- Registry well-formedness: every cached logger is stored under its own
name.  `get_logger` only ever creates entries of this shape. -/
def RegistryWF (reg : LoggerRegistry) : Prop := ∀ p ∈ reg.loggers, p.2.name = p.1

theorem get_logger_name {reg : LoggerRegistry} {n : String} {lv : Nat} {c : Option PyDict}
    (hwf : RegistryWF reg) : (AsyncLogger.get_logger reg n lv c).1.name = n := by
  unfold AsyncLogger.get_logger
  cases hl : reg.loggers.lookup n with
  | none => rfl
  | some lg => exact hwf (n, lg) (lookup_mem hl)

theorem get_logger_wf {reg : LoggerRegistry} {n : String} {lv : Nat} {c : Option PyDict}
    (hwf : RegistryWF reg) : RegistryWF (AsyncLogger.get_logger reg n lv c).2 := by
  unfold AsyncLogger.get_logger
  cases hl : reg.loggers.lookup n with
  | none =>
      intro p hp
      simp only [List.mem_append, List.mem_singleton] at hp
      rcases hp with hp | hp
      · exact hwf p hp
      · subst hp
        rfl
  | some lg => exact hwf

theorem get_logger_of_lookup_some {reg : LoggerRegistry} {n : String} {lv : Nat}
    {c : Option PyDict} {lg : AsyncLogger} (h : reg.loggers.lookup n = some lg) :
    AsyncLogger.get_logger reg n lv c = (lg, reg) := by
  unfold AsyncLogger.get_logger
  rw [h]

theorem get_logger_lookup_after {reg : LoggerRegistry} {n : String} {lv : Nat}
    {c : Option PyDict} :
    ((AsyncLogger.get_logger reg n lv c).2).loggers.lookup n =
      some (AsyncLogger.get_logger reg n lv c).1 := by
  unfold AsyncLogger.get_logger
  cases hl : reg.loggers.lookup n with
  | none =>
      simp only
      rw [lookup_append_of_none hl]
      simp [List.lookup]
  | some lg => exact hl

/-- `makeRecord` with a serializable caller dict whose merge with the context
has distinct, unreserved keys: the record carries the merged mapping and the
caller's dict ends up merged in place. -/
theorem makeRecord_some_ok {lg : AsyncLogger} {d : PyDict} {js : List (String × Jv)}
    (hser : encodeSEntries d = .ok js)
    (hres : ∀ k ∈ dictKeys (dictUpdate d lg.context), k ∉ reservedAttrs)
    (hnodup : (dictKeys (dictUpdate d lg.context)).Nodup)
    (name : String) (level : Nat) (fn : String) (lno : Option Nat) (msg : String)
    (args : List PyVal) (excInfo func sinfo : Option String) :
    lg.makeRecord name level fn lno msg args excInfo func (some d) sinfo =
      .ok (⟨name, level, fn, lno, msg, args, excInfo, func, sinfo, dictUpdate d lg.context⟩,
        some (dictUpdate d lg.context)) := by
  simp only [AsyncLogger.makeRecord, hser, baseMakeRecord, copyExtras_eq_ok hres hnodup]
  rfl

/-! ### The claims -/

/-- C1 counterexample: with bound context `{"k": "ctx"}` and caller-supplied
`extra` `{"k": "ex"}`, the constructed record carries the context value, not
the `extra` value, so the claim "the Record carries the value from `extra`"
is false at this input. -/
theorem c1_counterexample :
    AsyncLogger.makeRecord ⟨"svc", 20, [("k", PyVal.pystr "ctx")]⟩ "svc" 20 "" none "m" []
        none none (some [("k", PyVal.pystr "ex")]) none =
      .ok (⟨"svc", 20, "", none, "m", [], none, none, none, [("k", PyVal.pystr "ctx")]⟩,
        some [("k", PyVal.pystr "ctx")]) ∧
    PyVal.pystr "ctx" ≠ PyVal.pystr "ex" := by
  exact ⟨rfl, by simp⟩

/-- C1 (amended): corrected.  `extra.update(self.context)` gives the bound
context precedence: for every key the bound context defines, both the merged
mapping and the constructed Record carry the context value; a caller-supplied
`extra` value for a shared key is overwritten. -/
theorem c1_context_wins (lg : AsyncLogger) (d : PyDict) (js : List (String × Jv))
    (k : String) (v : PyVal) (name : String) (level : Nat) (fn : String) (lno : Option Nat)
    (msg : String) (args : List PyVal) (excInfo func sinfo : Option String)
    (hser : encodeSEntries d = .ok js)
    (hres : ∀ k' ∈ dictKeys (dictUpdate d lg.context), k' ∉ reservedAttrs)
    (hnodup : (dictKeys (dictUpdate d lg.context)).Nodup)
    (hcnodup : (dictKeys lg.context).Nodup)
    (hctx : dictGet lg.context k = some v) :
    lg.makeRecord name level fn lno msg args excInfo func (some d) sinfo =
      .ok (⟨name, level, fn, lno, msg, args, excInfo, func, sinfo, dictUpdate d lg.context⟩,
        some (dictUpdate d lg.context)) ∧
    dictGet (dictUpdate d lg.context) k = some v :=
  ⟨makeRecord_some_ok hser hres hnodup name level fn lno msg args excInfo func sinfo,
    dictGet_dictUpdate_of_mem d hcnodup hctx⟩

/-- C1 witness: the amended claim evaluated at the counterexample input. -/
theorem c1_context_wins_witness :
    encodeSEntries [("k", PyVal.pystr "ex")] = .ok [("k", Jv.jstr "ex")] ∧
    (AsyncLogger.makeRecord ⟨"svc", 20, [("k", PyVal.pystr "ctx")]⟩ "svc" 20 "" none "m" []
        none none (some [("k", PyVal.pystr "ex")]) none =
      .ok (⟨"svc", 20, "", none, "m", [], none, none, none, [("k", PyVal.pystr "ctx")]⟩,
        some [("k", PyVal.pystr "ctx")]) ∧
      dictGet [("k", PyVal.pystr "ctx")] "k" = some (PyVal.pystr "ctx")) := by
  refine ⟨rfl, ?_⟩
  exact c1_context_wins ⟨"svc", 20, [("k", PyVal.pystr "ctx")]⟩ [("k", PyVal.pystr "ex")]
    [("k", Jv.jstr "ex")] "k" (PyVal.pystr "ctx") "svc" 20 "" none "m" [] none none none
    rfl (by decide) (by decide) (by decide) rfl

/-- C2 counterexample: a nested dict with a tuple key is a value the encoding
strategy cannot represent; `_log_async` does raise `ValueError` for it, but
`info` catches the error and returns normally with two stderr lines, so the
caller of the log call does not observe a raised error.  Moreover a value of
an unrecognized kind (`pyobj`) raises nothing at all: it encodes as `null`
and record construction succeeds. -/
theorem c2_counterexample :
    AsyncLogger.logAsync ⟨"svc", 20, []⟩ 1 20 "m" []
        (some [("k", PyVal.pydict [(PyKey.kother "t", PyVal.pynone)])]) =
      .error (.valueError "Non-serializable data provided in extra") ∧
    AsyncLogger.info ⟨"svc", 20, []⟩ 1 "m" []
        (some [("k", PyVal.pydict [(PyKey.kother "t", PyVal.pynone)])]) =
      ⟨none, [], ["INFO: An error occurred while logging",
        "INFO: Message that failed to log: m"]⟩ ∧
    encodeVal (PyVal.pyobj "Widget") = .ok .jnull ∧
    AsyncLogger.makeRecord ⟨"svc", 20, []⟩ "svc" 20 "" none "m" [] none none
        (some [("k", PyVal.pyobj "Widget")]) none =
      .ok (⟨"svc", 20, "", none, "m", [], none, none, none, [("k", PyVal.pyobj "Widget")]⟩,
        some [("k", PyVal.pyobj "Widget")]) :=
  ⟨rfl, rfl, rfl, rfl⟩

/-- C2 (amended): corrected.  When the `json.dumps` test on `extra` fails,
`makeRecord` raises `ValueError` synchronously and `_log_async` propagates
it, but every per-level method catches the error, prints two diagnostic lines
to stderr and returns normally: the caller of `debug`/`info`/... never
observes the raised error.  A value of a kind the encoder does not recognize
raises no error at all: `CustomJSONEncoder.default` returns `None` for it and
it serializes as `null`. -/
theorem c2_error_swallowed_by_level_methods (lg : AsyncLogger) (nh level : Nat)
    (msg : String) (args : List PyVal) (d : PyDict) (e : PyErr)
    (hser : encodeSEntries d = .error e)
    (hen : lg.isEnabledFor level = true) :
    lg.makeRecord lg.name level "" none msg args none none (some d) none =
      .error (.valueError "Non-serializable data provided in extra") ∧
    lg.logAsync nh level msg args (some d) =
      .error (.valueError "Non-serializable data provided in extra") ∧
    lg.levelCall nh level msg args (some d) =
      ⟨none, [], [levelName level ++ ": An error occurred while logging",
        levelName level ++ ": Message that failed to log: " ++ msg]⟩ ∧
    (∀ tag, encodeVal (PyVal.pyobj tag) = .ok .jnull) := by
  have h1 : lg.makeRecord lg.name level "" none msg args none none (some d) none =
      .error (.valueError "Non-serializable data provided in extra") := by
    simp [AsyncLogger.makeRecord, hser]
  have h2 : lg.logAsync nh level msg args (some d) =
      .error (.valueError "Non-serializable data provided in extra") := by
    simp only [AsyncLogger.logAsync, hen, if_true, h1]
    rfl
  refine ⟨h1, h2, ?_, fun tag => rfl⟩
  simp [AsyncLogger.levelCall, h2]

/-- C2 witness: the amended claim evaluated at the counterexample input. -/
theorem c2_error_swallowed_witness :
    encodeSEntries [("k", PyVal.pydict [(PyKey.kother "t", PyVal.pynone)])] =
      .error (.typeError "keys must be str, int, float, bool or None, not a tuple") ∧
    AsyncLogger.isEnabledFor ⟨"svc", 20, []⟩ 20 = true ∧
    AsyncLogger.levelCall ⟨"svc", 20, []⟩ 1 20 "m" []
        (some [("k", PyVal.pydict [(PyKey.kother "t", PyVal.pynone)])]) =
      ⟨none, [], ["INFO: An error occurred while logging",
        "INFO: Message that failed to log: m"]⟩ := by
  refine ⟨rfl, rfl, ?_⟩
  exact (c2_error_swallowed_by_level_methods ⟨"svc", 20, []⟩ 1 20 "m" []
    [("k", PyVal.pydict [(PyKey.kother "t", PyVal.pynone)])]
    (.typeError "keys must be str, int, float, bool or None, not a tuple")
    rfl rfl).2.2.1

/-- C3 counterexample: a nested dict with a tuple key cannot be represented
by the encoding strategy, yet `bind` stores it without error and a log call
with `extra=None` constructs a Record carrying it — no failure at bind time
nor at record-construction time. -/
theorem c3_counterexample :
    encodeVal (PyVal.pydict [(PyKey.kother "t", PyVal.pynone)]) =
      .error (.typeError "keys must be str, int, float, bool or None, not a tuple") ∧
    (AsyncLogger.bind ⟨"svc", 20, []⟩
        [("k", PyVal.pydict [(PyKey.kother "t", PyVal.pynone)])]).context =
      [("k", PyVal.pydict [(PyKey.kother "t", PyVal.pynone)])] ∧
    AsyncLogger.makeRecord (AsyncLogger.bind ⟨"svc", 20, []⟩
        [("k", PyVal.pydict [(PyKey.kother "t", PyVal.pynone)])]) "svc" 20 "" none "m" []
        none none none none =
      .ok (⟨"svc", 20, "", none, "m", [], none, none, none,
        [("k", PyVal.pydict [(PyKey.kother "t", PyVal.pynone)])]⟩, none) :=
  ⟨rfl, rfl, rfl⟩

/-- C3 (amended): corrected.  Neither `bind` nor record construction ever
validates bound-context values: `bind` stores them unchecked, and
`makeRecord` tests only the caller-supplied `extra` (here `None`, so nothing
is tested); the bound values, serializable or not, are copied into the
Record without error. -/
theorem c3_bound_context_unchecked (lg : AsyncLogger) (kvs : PyDict) (name : String)
    (level : Nat) (fn : String) (lno : Option Nat) (msg : String) (args : List PyVal)
    (excInfo func sinfo : Option String)
    (hres : ∀ k ∈ dictKeys (dictUpdate lg.context kvs), k ∉ reservedAttrs)
    (hnodup : (dictKeys (dictUpdate lg.context kvs)).Nodup) :
    (lg.bind kvs).context = dictUpdate lg.context kvs ∧
    (lg.bind kvs).makeRecord name level fn lno msg args excInfo func none sinfo =
      .ok (⟨name, level, fn, lno, msg, args, excInfo, func, sinfo,
        dictUpdate lg.context kvs⟩, none) := by
  refine ⟨rfl, ?_⟩
  simp only [AsyncLogger.makeRecord, AsyncLogger.bind, baseMakeRecord,
    dictUpdate_nil_of_nodup hnodup, copyExtras_eq_ok hres hnodup]
  rfl

/-- C3 witness: the amended claim evaluated at the non-serializable
counterexample value. -/
theorem c3_bound_context_unchecked_witness :
    (∀ k ∈ dictKeys (dictUpdate ([] : PyDict)
      [("k", PyVal.pydict [(PyKey.kother "t", PyVal.pynone)])]), k ∉ reservedAttrs) ∧
    AsyncLogger.makeRecord (AsyncLogger.bind ⟨"svc", 20, []⟩
        [("k", PyVal.pydict [(PyKey.kother "t", PyVal.pynone)])]) "svc" 20 "" none "m" []
        none none none none =
      .ok (⟨"svc", 20, "", none, "m", [], none, none, none,
        dictUpdate ([] : PyDict) [("k", PyVal.pydict [(PyKey.kother "t", PyVal.pynone)])]⟩,
        none) := by
  refine ⟨by decide, ?_⟩
  exact (c3_bound_context_unchecked ⟨"svc", 20, []⟩
    [("k", PyVal.pydict [(PyKey.kother "t", PyVal.pynone)])] "svc" 20 "" none "m" []
    none none none (by decide) (by decide)).2

/-- C4 counterexample: on the very first delivery of a fresh handler the code
does not omit the token field: `put_log_events` is invoked with the
`sequenceToken` keyword present (the repository's own test asserts
`sequenceToken=None`), carrying the value `None`. -/
theorem c4_counterexample :
    ((AsyncCloudWatchLoggingHandler.init "g" "s").async_emit "m1" 0 (some "T1")).1 =
      ⟨"g", "s", [(0, "m1")], true, none⟩ ∧
    ((AsyncCloudWatchLoggingHandler.init "g" "s").async_emit "m1" 0
      (some "T1")).1.tokenPassed = true :=
  ⟨rfl, rfl⟩

/-- C4 (amended): corrected.  After a successful delivery D1 whose backend
response carries a (non-empty) token, the next delivery D2 sends exactly that
token; but the first delivery of a fresh handler does not omit the token
field — the `sequenceToken` keyword is passed explicitly with value `None`,
as the repository's test asserts. -/
theorem c4_token_threading (h : AsyncCloudWatchLoggingHandler) (g s m1 m2 t1 : String)
    (ts1 ts2 : Int) (resp2 : Option String) (hne : t1 ≠ "") :
    ((h.async_emit m1 ts1 (some t1)).2.async_emit m2 ts2 resp2).1.sequenceToken = some t1 ∧
    ((h.async_emit m1 ts1 (some t1)).2.async_emit m2 ts2 resp2).1.tokenPassed = true ∧
    ((AsyncCloudWatchLoggingHandler.init g s).async_emit m1 ts1 (some t1)).1.tokenPassed
      = true ∧
    ((AsyncCloudWatchLoggingHandler.init g s).async_emit m1 ts1 (some t1)).1.sequenceToken
      = none := by
  refine ⟨?_, rfl, rfl, rfl⟩
  simp [AsyncCloudWatchLoggingHandler.async_emit, tokenIfTruthy, hne]

/-- C4 witness: the token threading evaluated on a fresh handler with backend
token "T1". -/
theorem c4_token_threading_witness :
    ("T1" : String) ≠ "" ∧
    (((AsyncCloudWatchLoggingHandler.init "g" "s").async_emit "m1" 0 (some "T1")).2.async_emit
      "m2" 1 none).1.sequenceToken = some "T1" := by
  refine ⟨by decide, ?_⟩
  exact (c4_token_threading (AsyncCloudWatchLoggingHandler.init "g" "s") "g" "s" "m1" "m2"
    "T1" 0 1 none (by decide)).1

/-- C5: confirmed.  For every level strictly below the logger's effective
threshold, `_log_async` constructs no record and makes no handler call; and
the scenario logger "svc" at threshold INFO drops `debug("x")` entirely while
`info("y")` dispatches exactly one record, carrying message "y". -/
theorem c5_below_threshold_no_dispatch (lg : AsyncLogger) (nh level : Nat) (msg : String)
    (args : List PyVal) (extra : Option PyDict)
    (hlt : level < lg.getEffectiveLevel) :
    lg.logAsync nh level msg args extra = .ok (none, []) ∧
    AsyncLogger.debug ⟨"svc", 20, []⟩ 1 "x" [] none = ⟨none, [], []⟩ ∧
    AsyncLogger.info ⟨"svc", 20, []⟩ 1 "y" [] none =
      ⟨some ⟨"svc", 20, "", none, "y", [], none, none, none, []⟩,
        [(0, ⟨"svc", 20, "", none, "y", [], none, none, none, []⟩)], []⟩ := by
  refine ⟨?_, rfl, rfl⟩
  have hb : lg.isEnabledFor level = false := by
    simp only [AsyncLogger.isEnabledFor, decide_eq_false_iff_not, Nat.not_le]
    exact hlt
  simp [AsyncLogger.logAsync, hb]
  rfl

/-- C5 witness: the scenario call `debug("x")` on the INFO logger. -/
theorem c5_below_threshold_witness :
    10 < (⟨"svc", 20, []⟩ : AsyncLogger).getEffectiveLevel ∧
    AsyncLogger.logAsync ⟨"svc", 20, []⟩ 1 10 "x" [] none = .ok (none, []) := by
  refine ⟨by decide, ?_⟩
  exact (c5_below_threshold_no_dispatch ⟨"svc", 20, []⟩ 1 10 "x" [] none (by decide)).1

/-- C6: confirmed.  Running extra operations after a trace only appends to
the dispatched records: every record of the earlier trace is produced from
the context as bound at its own call and is never altered by later
operations; in particular a later `bind` leaves the record list of the
earlier trace unchanged. -/
theorem c6_snapshot_semantics (lg : AsyncLogger) (nh : Nat) (ops more : List LoggerOp) :
    runOps lg nh (ops ++ more) =
      ((runOps (runOps lg nh ops).1 nh more).1,
        (runOps lg nh ops).2 ++ (runOps (runOps lg nh ops).1 nh more).2) ∧
    (∀ kvs, (runOps lg nh (ops ++ [LoggerOp.bindOp kvs])).2 = (runOps lg nh ops).2) := by
  have main : ∀ (lg : AsyncLogger) (ops more : List LoggerOp),
      runOps lg nh (ops ++ more) =
        ((runOps (runOps lg nh ops).1 nh more).1,
          (runOps lg nh ops).2 ++ (runOps (runOps lg nh ops).1 nh more).2) := by
    intro lg ops
    induction ops generalizing lg with
    | nil => intro more; simp [runOps]
    | cons op rest ih =>
        intro more
        cases op with
        | bindOp kvs => simpa [runOps] using ih (lg.bind kvs) more
        | logOp level msg extra => simp [runOps, ih lg more, List.append_assoc]
  refine ⟨main lg ops more, fun kvs => ?_⟩
  rw [main lg ops [LoggerOp.bindOp kvs]]
  simp [runOps]

/-- C7: confirmed.  `get_logger` with a name already cached returns the
identical instance, leaves the registry unchanged, and ignores the level and
context arguments; distinct names yield distinct instances. -/
theorem c7_registry_singleton (reg : LoggerRegistry) (n1 n2 : String) (lv1 lv2 lv3 : Nat)
    (c1 c2 c3 : Option PyDict) (hwf : RegistryWF reg) (hne : n1 ≠ n2) :
    AsyncLogger.get_logger (AsyncLogger.get_logger reg n1 lv1 c1).2 n1 lv2 c2 =
      ((AsyncLogger.get_logger reg n1 lv1 c1).1, (AsyncLogger.get_logger reg n1 lv1 c1).2) ∧
    (AsyncLogger.get_logger (AsyncLogger.get_logger reg n1 lv1 c1).2 n2 lv3 c3).1 ≠
      (AsyncLogger.get_logger reg n1 lv1 c1).1 := by
  constructor
  · exact get_logger_of_lookup_some (@get_logger_lookup_after reg n1 lv1 c1)
  · intro heq
    apply hne
    calc n1 = (AsyncLogger.get_logger reg n1 lv1 c1).1.name := (get_logger_name hwf).symm
      _ = (AsyncLogger.get_logger (AsyncLogger.get_logger reg n1 lv1 c1).2 n2 lv3 c3).1.name
          := by rw [heq]
      _ = n2 := get_logger_name (get_logger_wf hwf)

/-- C7 witness: the registry facts evaluated from an empty registry with
names "logger1" and "logger2". -/
theorem c7_registry_singleton_witness :
    RegistryWF ⟨[]⟩ ∧ ("logger1" : String) ≠ "logger2" ∧
    AsyncLogger.get_logger (AsyncLogger.get_logger ⟨[]⟩ "logger1" 0 none).2 "logger1" 20
        (some [("k", PyVal.pyint 1)]) =
      ((AsyncLogger.get_logger ⟨[]⟩ "logger1" 0 none).1,
        (AsyncLogger.get_logger ⟨[]⟩ "logger1" 0 none).2) := by
  refine ⟨?_, by decide, ?_⟩
  · intro p hp
    simp at hp
  · exact (c7_registry_singleton ⟨[]⟩ "logger1" "logger2" 0 20 0 none
      (some [("k", PyVal.pyint 1)]) none (fun p hp => by simp at hp) (by decide)).1

/-- C8: confirmed.  Encoding a naive datetime, a UUID, a set of JSON
primitives, a bytes value and a complex number with `CustomJSONEncoder` and
decoding each as the round-trip tests do reproduces the original value; the
set comes back in its serialized iteration order (the documented
representation). -/
theorem c8_roundtrip :
    (∀ d : PyDateTime, d.isValid = true → RoundTrips decodeDatetime (.pydatetime d)) ∧
    (∀ n : Nat, n < 2 ^ 128 → RoundTrips decodeUuid (.pyuuid n)) ∧
    (∀ xs : List PyVal, (∀ x ∈ xs, isPrim x = true) → RoundTrips decodeSet (.pyset xs)) ∧
    (∀ bs : List Nat, (∀ b ∈ bs, b < 256) → RoundTrips decodeBytes (.pybytes bs)) ∧
    (∀ re im : ℚ, RoundTrips decodeComplex (.pycomplex re im)) := by
  refine ⟨?_, ?_, ?_, ?_, ?_⟩
  · intro d hd
    exact ⟨.jstr d.isoformat, rfl, by
      simp [decodeDatetime, PyDateTime.fromIso_isoformat hd]⟩
  · intro n hn
    exact ⟨.jstr (uuidStr n), rfl, by simp [decodeUuid, uuidParse_uuidStr hn]⟩
  · intro xs hxs
    obtain ⟨js, hjs, hjsd⟩ := primList_encodeList hxs
    refine ⟨.jarr js, ?_, ?_⟩
    · simp only [encodeVal, hjs]
      rfl
    · simp [decodeSet, hjsd]
  · intro bs hbs
    exact ⟨.jstr (String.mk (b64EncodeBytes bs)), rfl, by
      simp [decodeBytes, b64DecodeChars_b64EncodeBytes hbs]⟩
  · intro re im
    exact ⟨.jobj [("real", .jnum re), ("imag", .jnum im)], rfl, rfl⟩

/-- C8 witness: the five round trips evaluated at concrete values. -/
theorem c8_roundtrip_witness :
    (⟨2024, 1, 30, 10, 0, 0, 123456⟩ : PyDateTime).isValid = true ∧
    RoundTrips decodeDatetime (.pydatetime ⟨2024, 1, 30, 10, 0, 0, 123456⟩) ∧
    (5 : Nat) < 2 ^ 128 ∧
    RoundTrips decodeUuid (.pyuuid 5) ∧
    RoundTrips decodeSet (.pyset [.pyint 1, .pyint 2, .pyint 3]) ∧
    RoundTrips decodeBytes (.pybytes [104, 101, 108, 108, 111]) ∧
    RoundTrips decodeComplex (.pycomplex 1 2) := by
  refine ⟨by decide, c8_roundtrip.1 _ (by decide), by norm_num,
    c8_roundtrip.2.1 5 (by norm_num), c8_roundtrip.2.2.1 _ (by decide),
    c8_roundtrip.2.2.2.1 _ (by decide), c8_roundtrip.2.2.2.2 1 2⟩

/-- C10: confirmed.  When the caller passes a (serializable) `extra` dict,
`makeRecord` mutates it in place: after the call the caller's mapping equals
`extra.update(context)`, which contains every bound-context key, with the
context's value on shared keys, instead of the logger working on a private
copy. -/
theorem c10_caller_extra_mutated (lg : AsyncLogger) (d : PyDict) (js : List (String × Jv))
    (name : String) (level : Nat) (fn : String) (lno : Option Nat) (msg : String)
    (args : List PyVal) (excInfo func sinfo : Option String)
    (hser : encodeSEntries d = .ok js)
    (hres : ∀ k' ∈ dictKeys (dictUpdate d lg.context), k' ∉ reservedAttrs)
    (hnodup : (dictKeys (dictUpdate d lg.context)).Nodup)
    (hcnodup : (dictKeys lg.context).Nodup) :
    lg.makeRecord name level fn lno msg args excInfo func (some d) sinfo =
      .ok (⟨name, level, fn, lno, msg, args, excInfo, func, sinfo, dictUpdate d lg.context⟩,
        some (dictUpdate d lg.context)) ∧
    ∀ k v, dictGet lg.context k = some v → dictGet (dictUpdate d lg.context) k = some v :=
  ⟨makeRecord_some_ok hser hres hnodup name level fn lno msg args excInfo func sinfo,
    fun _ _ hkv => dictGet_dictUpdate_of_mem d hcnodup hkv⟩

/-- C10 witness: the caller's dict `{"k": "ex", "d1": 1}` after the call has
gained the context key "c2" and had "k" overwritten by the context value. -/
theorem c10_caller_extra_mutated_witness :
    encodeSEntries [("k", PyVal.pystr "ex"), ("d1", PyVal.pyint 1)] =
      .ok [("k", Jv.jstr "ex"), ("d1", Jv.jint 1)] ∧
    AsyncLogger.makeRecord ⟨"svc", 20, [("k", PyVal.pystr "ctx"), ("c2", PyVal.pyint 7)]⟩
        "svc" 20 "" none "m" [] none none
        (some [("k", PyVal.pystr "ex"), ("d1", PyVal.pyint 1)]) none =
      .ok (⟨"svc", 20, "", none, "m", [], none, none, none,
        [("k", PyVal.pystr "ctx"), ("d1", PyVal.pyint 1), ("c2", PyVal.pyint 7)]⟩,
        some [("k", PyVal.pystr "ctx"), ("d1", PyVal.pyint 1), ("c2", PyVal.pyint 7)]) := by
  refine ⟨rfl, ?_⟩
  exact (c10_caller_extra_mutated ⟨"svc", 20, [("k", PyVal.pystr "ctx"), ("c2", PyVal.pyint 7)]⟩
    [("k", PyVal.pystr "ex"), ("d1", PyVal.pyint 1)]
    [("k", Jv.jstr "ex"), ("d1", Jv.jint 1)] "svc" 20 "" none "m" [] none none none
    rfl (by decide) (by decide) (by decide)).1

end PyAsyncLogger
